import Mathlib

set_option maxRecDepth 8000

/-! Model of the telemetry batch writer (`ClickHouse`) and of the broadcast
gate (`AccessLock`) of the torrent-http-proxy repository.  The database
driver is represented by an explicit environment (`DBEnv`) giving the
outcome of each driver call, and every store-affecting driver call issued
by the writer is recorded in a trace of `DBEvent`s.  Execution is
sequential: a goroutine hand-off becomes an explicit batch value, a mutex
that a function can return while still holding becomes a held/free flag,
and a call that would block forever (locking a held mutex in this
single-threaded model) returns `none`. -/

/-- One telemetry record, as in the source struct `StatRecord`
(`time.Time` and the unsigned integer fields are modelled as `Nat`). -/
structure StatRecord where
  Timestamp : Nat
  ApiKey : String
  Client : String
  BytesWritten : Nat
  TTFB : Nat
  Duration : Nat
  Path : String
  InfoHash : String
  OriginalPath : String
  SessionID : String
  Domain : String
  Status : Nat
  GroupedStatus : Nat
  Edge : String
  Source : String
  Role : String
  Ads : Bool
deriving DecidableEq

/-- A value passed as one SQL parameter of `stmt.Exec`. -/
inductive Val where
  | str (v : String)
  | nat (v : Nat)
deriving DecidableEq

/-- One store-affecting call issued to the database driver.  The events
`get`, `ping`, `txBegin`, `prepare` and `execInsert` record calls as they
are issued (also when the call itself then fails); `commit` records a
transaction actually becoming committed, so a failed `tx.Commit` produces
no `commit` event. -/
inductive DBEvent where
  | get
  | execDDL (sql : String)
  | ping
  | txBegin
  | prepare (sql : String)
  | execInsert (row : List Val)
  | commit
deriving DecidableEq

/-- Outcome environment for one `store` call: for each driver call, `none`
means success and `some e` means failure with cause `e`.  `ddlErr i` is the
outcome of the i-th `db.Exec` of a DDL statement inside `makeTable`;
`execErr i` is the outcome of the `stmt.Exec` for the i-th record of the
batch. -/
structure DBEnv where
  getErr : Option String
  ddlErr : Nat → Option String
  pingErr : Option String
  beginErr : Option String
  prepareErr : Option String
  execErr : Nat → Option String
  commitErr : Option String

/-- Writer state, as in the source struct `ClickHouse`.  The short batch
mutex `mux` is implicit in this sequential model; the flush-serialization
mutex `storeMux` is kept as a held/free flag because `store` can return
while still holding it; `sync.Once` becomes the flag `initDone`; the
`DBProvider` is supplied as the environment of each `store` call. -/
structure ClickHouse where
  batchSize : Nat
  batch : List StatRecord
  storeMux : Bool
  initDone : Bool
  nodeName : String
  replicated : Bool
deriving DecidableEq

/-- `NewClickHouse`: fresh writer with an empty batch, both locks free and
the provisioning guard not yet fired. -/
def NewClickHouse (batchSize : Nat) (nodeName : String) (replicated : Bool) : ClickHouse :=
  { batchSize := batchSize, batch := [], storeMux := false, initDone := false,
    nodeName := nodeName, replicated := replicated }

/-- Message produced by `errors.Wrapf(err, ctx)`. -/
def wrap (ctx cause : String) : String := ctx ++ ": " ++ cause

/-- The `table` / `tableExpr` variable of `makeTable`. -/
def chTableExpr (replicated : Bool) : String :=
  if replicated then "proxy_stat on cluster \x27\x7bcluster\x7d\x27" else "proxy_stat"

/-- The `engine` variable of `makeTable`. -/
def chEngine (replicated : Bool) : String :=
  if replicated then
    "ReplicatedMergeTree(\x27/clickhouse/\x7binstallation\x7d/\x7bcluster\x7d/tables/\x7bshard\x7d/\x7bdatabase\x7d/\x7btable\x7d\x27, \x27\x7breplica\x7d\x27)"
  else "MergeTree()"

/-- The `ttl` variable of `makeTable`. -/
def chTTL : String := "3 MONTH"

/-- The first DDL statement of `makeTable` (the `fmt.Sprintf` of the
trimmed raw literal with `tableExpr`, `engine` and `ttl` substituted). -/
def chCreateTableSQL (replicated : Bool) : String :=
  "CREATE TABLE IF NOT EXISTS " ++ chTableExpr replicated ++ " (\n" ++
  "\t\t\ttimestamp      DateTime,\n" ++
  "\t\t\tapi_key        String,\n" ++
  "\t\t\tclient         String,\n" ++
  "\t\t\tbytes_written  UInt64,\n" ++
  "\t\t\tttfb           UInt32,\n" ++
  "\t\t\tduration       UInt32,\n" ++
  "\t\t\tpath           String,\n" ++
  "\t\t\tinfohash       String,\n" ++
  "\t\t\toriginal_path  String,\n" ++
  "\t\t\tsession_id     String,\n" ++
  "\t\t\tdomain         String,\n" ++
  "\t\t\tstatus         UInt16,\n" ++
  "\t\t\tgrouped_status UInt16,\n" ++
  "\t\t\tedge           String,\n" ++
  "\t\t\tsource         String,\n" ++
  "\t\t\trole           String,\n" ++
  "\t\t\tads            UInt8,\n" ++
  "\t\t\tnode           String\n" ++
  "\t\t) engine = " ++ chEngine replicated ++ "\n" ++
  "\t\tPARTITION BY toYYYYMM(timestamp)\n" ++
  "\t\tORDER BY (timestamp)\n" ++
  "\t\tTTL timestamp + INTERVAL " ++ chTTL

/-- The second DDL statement of `makeTable`, issued only in replicated
mode: the distributed table over `proxy_stat` with `rand()` shard
routing. -/
def chCreateDistributedSQL : String :=
  "CREATE TABLE IF NOT EXISTS proxy_stat_all on cluster \x27\x7bcluster\x7d\x27 as proxy_stat\n" ++
  "\t\t\t\tENGINE = Distributed(\x27\x7bcluster\x7d\x27, default, proxy_stat, rand())"

/-- `makeTable` from the source: exec the CREATE TABLE statement; on error
return it at once; in replicated mode exec the distributed-table statement
as well and return its outcome; otherwise return success.  The trace lists
the DDL statements actually passed to `db.Exec`. -/
def ClickHouse.makeTable (s : ClickHouse) (env : DBEnv) : List DBEvent × Option String :=
  match env.ddlErr 0 with
  | some e => ([DBEvent.execDDL (chCreateTableSQL s.replicated)], some e)
  | none =>
    if s.replicated then
      ([DBEvent.execDDL (chCreateTableSQL s.replicated),
        DBEvent.execDDL chCreateDistributedSQL], env.ddlErr 1)
    else
      ([DBEvent.execDDL (chCreateTableSQL s.replicated)], none)

/-- The `table` variable of `store`: `"proxy_stat"`, with `"_all"`
appended in replicated mode. -/
def storeTable (replicated : Bool) : String :=
  "proxy_stat" ++ (if replicated then "_all" else "")

/-- The parameterized INSERT statement prepared by `store` (`fmt.Sprintf`
of the raw literal with the table name substituted). -/
def chInsertSQL (table : String) : String :=
  "INSERT INTO " ++ table ++ " (timestamp, api_key, client, bytes_written, ttfb,\n" ++
  "\t\tduration, path, infohash, original_path, session_id, domain, status, grouped_status, edge,\n" ++
  "\t\tsource, role, ads, node) VALUES (?, ?, ?, ?, ?, ?, ?, ?, ?, ?, ?, ?, ?, ?, ?, ?, ?, ?)"

/-- The argument list passed to `stmt.Exec` for one record: the seventeen
record fields in source order, with the Boolean `Ads` first normalised to
a `uint8` (1 for true, 0 for false) and the writer's `nodeName` appended
as the final value. -/
def execArgs (nodeName : String) (r : StatRecord) : List Val :=
  [Val.nat r.Timestamp, Val.str r.ApiKey, Val.str r.Client, Val.nat r.BytesWritten,
   Val.nat r.TTFB, Val.nat r.Duration, Val.str r.Path, Val.str r.InfoHash,
   Val.str r.OriginalPath, Val.str r.SessionID, Val.str r.Domain, Val.nat r.Status,
   Val.nat r.GroupedStatus, Val.str r.Edge, Val.str r.Source, Val.str r.Role,
   Val.nat (if r.Ads then 1 else 0), Val.str nodeName]

/-- The per-record `stmt.Exec` loop of `store`: exec the arguments of each
record in batch order; on the first failing exec, stop and return the
wrapped error.  Returns the trace of exec calls issued and the loop's
error outcome; `i` is the index of the first record of `sr` within the
whole batch. -/
def execLoop (nodeName : String) (env : DBEnv) : List StatRecord → Nat → List DBEvent × Option String
  | [], _ => ([], none)
  | r :: rs, i =>
    match env.execErr i with
    | some e => ([DBEvent.execInsert (execArgs nodeName r)], some (wrap "Failed to exec" e))
    | none =>
      let rest := execLoop nodeName env rs (i + 1)
      (DBEvent.execInsert (execArgs nodeName r) :: rest.1, rest.2)

/-- Steps 5 to 7 of `store` (ping, begin, prepare, per-record exec,
commit), which touch no writer state.  Returns the error outcome and the
trace of driver calls issued. -/
def storeTx (s : ClickHouse) (sr : List StatRecord) (env : DBEnv) : Option String × List DBEvent :=
  match env.pingErr with
  | some e => (some (wrap "Failed to ping" e), [DBEvent.ping])
  | none =>
    match env.beginErr with
    | some e => (some (wrap "Failed to begin" e), [DBEvent.ping, DBEvent.txBegin])
    | none =>
      match env.prepareErr with
      | some e =>
        (some (wrap "Failed to prepare" e),
         [DBEvent.ping, DBEvent.txBegin, DBEvent.prepare (chInsertSQL (storeTable s.replicated))])
      | none =>
        match (execLoop s.nodeName env sr 0).2 with
        | some e =>
          (some e,
           [DBEvent.ping, DBEvent.txBegin, DBEvent.prepare (chInsertSQL (storeTable s.replicated))]
             ++ (execLoop s.nodeName env sr 0).1)
        | none =>
          match env.commitErr with
          | some e =>
            (some (wrap "Failed to commit" e),
             [DBEvent.ping, DBEvent.txBegin, DBEvent.prepare (chInsertSQL (storeTable s.replicated))]
               ++ (execLoop s.nodeName env sr 0).1)
          | none =>
            (none,
             [DBEvent.ping, DBEvent.txBegin, DBEvent.prepare (chInsertSQL (storeTable s.replicated))]
               ++ (execLoop s.nodeName env sr 0).1 ++ [DBEvent.commit])

/-- Result of one `store` call: the writer state at return, the returned
error, and the trace of driver calls issued during the call. -/
structure StoreResult where
  state : ClickHouse
  err : Option String
  trace : List DBEvent
deriving DecidableEq

/-- `store` from the source.  `s.storeMux.Lock()` on a mutex already held
never returns in this sequential model (`none`).  The empty-batch early
return happens before the deferred unlock is registered, so on that path
the function returns with `storeMux` still held; every other exit path
runs the deferred unlock.  `s.init.Do` runs `makeTable` only if the guard
has not fired and sets the guard regardless of `makeTable`'s outcome. -/
def ClickHouse.store (s : ClickHouse) (sr : List StatRecord) (env : DBEnv) : Option StoreResult :=
  if s.storeMux then none
  else if sr.length = 0 then
    some { state := { s with storeMux := true }, err := none, trace := [] }
  else
    match env.getErr with
    | some e =>
      some { state := { s with storeMux := false },
             err := some (wrap "Failed to get ClickHouse DB" e), trace := [DBEvent.get] }
    | none =>
      let s₂ := if s.initDone then s else { s with initDone := true }
      let mt := if s.initDone then (([] : List DBEvent), (none : Option String))
                else s.makeTable env
      match mt.2 with
      | some e =>
        some { state := { s₂ with storeMux := false },
               err := some (wrap "Failed to create table" e), trace := DBEvent.get :: mt.1 }
      | none =>
        some { state := { s₂ with storeMux := false },
               err := (storeTx s₂ sr env).1,
               trace := DBEvent.get :: mt.1 ++ (storeTx s₂ sr env).2 }

/-- `Add` from the source: append the record to the live batch; if the
batch has reached the configured size, hand the full batch to an
asynchronous `store` call and replace it with a fresh empty one; return
`nil` unconditionally.  The middle component is the batch handed off for
flushing, if any; the last component is the returned error. -/
def ClickHouse.Add (s : ClickHouse) (sr : StatRecord) : ClickHouse × Option (List StatRecord) × Option String :=
  let b := s.batch ++ [sr]
  if s.batchSize ≤ b.length then
    ({ s with batch := [] }, some b, none)
  else
    ({ s with batch := b }, none, none)

/-- `Close` from the source: run `store` synchronously on the live batch
(discarding its result), then clear the batch.  Go's `Close` has no return
value, so the last component — the error the caller observes — is `none`
on every path; `none` for the whole call means `store` never returned. -/
def ClickHouse.Close (s : ClickHouse) (env : DBEnv) : Option (ClickHouse × List DBEvent × Option String) :=
  match s.store s.batch env with
  | none => none
  | some res => some ({ res.state with batch := [] }, res.trace, none)

/-- Run a sequence of `Add` calls, collecting the batches handed off to
asynchronous flushes, in hand-off order. -/
def runAdds (s : ClickHouse) : List StatRecord → ClickHouse × List (List StatRecord)
  | [] => (s, [])
  | r :: rs =>
    let step := s.Add r
    let rest := runAdds step.1 rs
    (rest.1, step.2.1.toList ++ rest.2)

/-- Whether a trace contains a DDL execution, i.e. whether `makeTable` ran
during the call that produced it (`makeTable` always execs at least one
DDL statement). -/
def ranDDL (tr : List DBEvent) : Bool :=
  tr.any fun e => match e with | DBEvent.execDDL _ => true | _ => false

/-- Run a sequence of `store` calls (each with its own batch and driver
environment), counting the calls in which `makeTable` ran.  A call that
never returns ends the sequence. -/
def runStores (s : ClickHouse) : List (List StatRecord × DBEnv) → ClickHouse × Nat
  | [] => (s, 0)
  | (sr, env) :: rest =>
    match s.store sr env with
    | none => (s, 0)
    | some res =>
      let next := runStores res.state rest
      (next.1, (if ranDDL res.trace then 1 else 0) + next.2)

/-- The rows passed to `stmt.Exec`, in trace order. -/
def insertedRows (tr : List DBEvent) : List (List Val) :=
  tr.filterMap fun e => match e with | DBEvent.execInsert row => some row | _ => none

/-- The rows durably committed by the calls of a trace: the inserted rows
if the transaction committed, nothing otherwise. -/
def committedRows (tr : List DBEvent) : List (List Val) :=
  if DBEvent.commit ∈ tr then insertedRows tr else []

/-- Gate state, as in the source struct `AccessLock`: the underlying
channel's closed state and the `closed` guard flag (the mutex is implicit
in this sequential model). -/
structure AccessLock where
  chanClosed : Bool
  closed : Bool
deriving DecidableEq

/-- `NewAccessLock`: open channel, guard not set. -/
def NewAccessLock : AccessLock := { chanClosed := false, closed := false }

/-- `Unlock` from the source: under the mutex, if the guard is not set,
close the channel and set the guard.  Closing an already-closed channel
panics in Go, modelled as `none`. -/
def AccessLock.Unlock (al : AccessLock) : Option AccessLock :=
  if !al.closed then
    if al.chanClosed then none
    else some { chanClosed := true, closed := true }
  else some al

/-- Call `Unlock` n times in sequence, counting the observable
open-to-released transitions of the channel; `none` if any call panics. -/
def unlockN : Nat → AccessLock → Option (AccessLock × Nat)
  | 0, al => some (al, 0)
  | n + 1, al =>
    match al.Unlock with
    | none => none
    | some al₂ =>
      match unlockN n al₂ with
      | none => none
      | some p => some (p.1, (if al₂.chanClosed = al.chanClosed then 0 else 1) + p.2)

/-! Concrete fixtures used by the witness theorems. -/

/-- A record with zero values, as built by `&StatRecord{}` in the test. -/
def rec0 : StatRecord :=
  { Timestamp := 0, ApiKey := "", Client := "", BytesWritten := 0, TTFB := 0,
    Duration := 0, Path := "", InfoHash := "", OriginalPath := "", SessionID := "",
    Domain := "", Status := 0, GroupedStatus := 0, Edge := "", Source := "",
    Role := "", Ads := false }

/-- A record with the advertising flag set. -/
def recAds : StatRecord := { rec0 with Ads := true }

/-- Driver environment in which every call succeeds. -/
def envOK : DBEnv :=
  { getErr := none, ddlErr := fun _ => none, pingErr := none, beginErr := none,
    prepareErr := none, execErr := fun _ => none, commitErr := none }

/-- Driver environment in which handle acquisition fails. -/
def envGetFail : DBEnv := { envOK with getErr := some "connection refused" }

/-- Driver environment in which the ping fails. -/
def envPingFail : DBEnv := { envOK with pingErr := some "no connection" }

/-- Five zero records. -/
def recs5 : List StatRecord := [rec0, rec0, rec0, rec0, rec0]

/-- A writer whose provisioning guard has already fired. -/
def wInit : ClickHouse := { NewClickHouse 1000 "node1" false with initDone := true }

/-- A fresh replicated writer. -/
def wRepl : ClickHouse := NewClickHouse 1000 "node1" true

/-- A fresh non-replicated writer holding one pending record. -/
def wPending : ClickHouse := { NewClickHouse 1000 "node1" false with batch := [rec0] }

/-- The result of a successful replicated `store` call on one record. -/
def resRepl : StoreResult :=
  (wRepl.store [recAds] envOK).getD { state := wRepl, err := none, trace := [] }

/-- The result of a `store` call that fails at the ping step. -/
def resPing : StoreResult :=
  (wInit.store [rec0] envPingFail).getD { state := wInit, err := none, trace := [] }

/-- Whether `needle` occurs as a contiguous run inside `hay`. -/
def hasSub (needle : List Char) : List Char → Bool
  | [] => needle.isEmpty
  | c :: rest => needle.isPrefixOf (c :: rest) || hasSub needle rest

/-- The value `Close` returns on a writer with one pending record and a
store whose handle acquisition fails. -/
def outFail : ClickHouse × List DBEvent × Option String :=
  (wPending.Close envGetFail).getD (wPending, [], none)

/-- The result of a successful `store` call on one record with the
advertising flag set, on a writer whose provisioning guard already fired. -/
def resOK : StoreResult :=
  (wInit.store [recAds] envOK).getD { state := wInit, err := none, trace := [] }

/-! Helper lemmas. -/

lemma unlockN_released (n : Nat) :
    unlockN n { chanClosed := true, closed := true } =
      some (({ chanClosed := true, closed := true } : AccessLock), 0) := by
  induction n with
  | zero => rfl
  | succ n ih => simp [unlockN, AccessLock.Unlock, ih]

lemma Add_eq_pos (s : ClickHouse) (r : StatRecord) (h : s.batchSize ≤ (s.batch ++ [r]).length) :
    s.Add r = ({ s with batch := [] }, some (s.batch ++ [r]), none) := by
  simp only [List.length_append, List.length_singleton, List.length_cons, List.length_nil] at h
  simp [ClickHouse.Add, h]

lemma Add_eq_neg (s : ClickHouse) (r : StatRecord) (h : ¬ s.batchSize ≤ (s.batch ++ [r]).length) :
    s.Add r = ({ s with batch := s.batch ++ [r] }, none, none) := by
  simp only [List.length_append, List.length_singleton, List.length_cons, List.length_nil] at h
  simp [ClickHouse.Add, h]

/-! Theorems for the claims, with their witnesses. -/

/-- C9: `Release` (`Unlock`) on a gate is idempotent: for every N ≥ 1,
calling it N times from a fresh gate produces exactly one observable
open-to-released transition of the channel, every call after the first
leaves the gate state unchanged, and no call panics (the guard prevents a
second `close` of the channel). -/
theorem unlock_idempotent (N : Nat) (h : 1 ≤ N) :
    unlockN N NewAccessLock = some (({ chanClosed := true, closed := true } : AccessLock), 1) := by
  obtain ⟨m, rfl⟩ : ∃ m, N = m + 1 := ⟨N - 1, (Nat.succ_pred_eq_of_pos h).symm⟩
  simp [unlockN, NewAccessLock, AccessLock.Unlock, unlockN_released]

theorem unlock_idempotent_witness :
    1 ≤ 3 ∧ unlockN 3 NewAccessLock = some (({ chanClosed := true, closed := true } : AccessLock), 1) :=
  ⟨by decide, unlock_idempotent 3 (by decide)⟩

/-- C5: for every writer state — including states reached after failed
flushes — and every record, `Add` returns no error. -/
theorem add_never_returns_error (s : ClickHouse) (sr : StatRecord) :
    (s.Add sr).2.2 = none := by
  by_cases h : s.batchSize ≤ (s.batch ++ [sr]).length
  · rw [Add_eq_pos s sr h]
  · rw [Add_eq_neg s sr h]

/-- C10: whenever `Close` returns, the pending batch is empty, regardless
of the outcome of the final synchronous flush: the remaining records are
discarded unconditionally. -/
theorem close_clears_batch_even_on_error (s : ClickHouse) (env : DBEnv)
    (out : ClickHouse × List DBEvent × Option String) (h : s.Close env = some out) :
    out.1.batch = [] := by
  unfold ClickHouse.Close at h
  split at h
  · exact Option.noConfusion h
  · cases h; rfl

theorem close_clears_batch_even_on_error_witness :
    wPending.Close envGetFail = some outFail ∧ outFail.1.batch = [] :=
  ⟨rfl, close_clears_batch_even_on_error wPending envGetFail outFail rfl⟩

/-- C2 (amended): `Close` runs the synchronous flush of the remaining live
batch to completion (same driver calls and state effects as `store`), but
Go's `Close` returns no value: the flush error is discarded and the error
the caller observes is always `none`. -/
theorem close_flushes_then_discards_error (s : ClickHouse) (env : DBEnv) (res : StoreResult)
    (h : s.store s.batch env = some res) :
    s.Close env = some ({ res.state with batch := [] }, res.trace, none) := by
  unfold ClickHouse.Close
  rw [h]

theorem close_flushes_then_discards_error_witness :
    wPending.store wPending.batch envGetFail =
      some { state := { wPending with storeMux := false },
             err := some "Failed to get ClickHouse DB: connection refused",
             trace := [DBEvent.get] }
    ∧ wPending.Close envGetFail =
      some ({ wPending with storeMux := false, batch := [] }, [DBEvent.get], none) :=
  ⟨rfl, close_flushes_then_discards_error wPending envGetFail
    { state := { wPending with storeMux := false },
      err := some "Failed to get ClickHouse DB: connection refused",
      trace := [DBEvent.get] } rfl⟩

/-- C2 (counterexample): on a writer with one pending record, a flush whose
handle acquisition fails makes `store` return a wrapped error, yet `Close`
returns with no observable error — the claim that the flush error is
observable from `Close`'s return value is false at this input. -/
theorem close_discards_flush_error_cex :
    wPending.store wPending.batch envGetFail =
      some { state := { wPending with storeMux := false },
             err := some "Failed to get ClickHouse DB: connection refused",
             trace := [DBEvent.get] }
    ∧ wPending.Close envGetFail =
      some ({ wPending with storeMux := false, batch := [] }, [DBEvent.get], none) :=
  ⟨rfl, rfl⟩

/-- C3: on an empty batch, `store` returns `nil` without issuing any driver
call and without touching the provisioning guard or the batch — but it
returns with the flush-serialization mutex still held, because the deferred
unlock is registered only after the early return; consequently every later
`store` call on the writer blocks forever. -/
theorem store_empty_batch_no_steps_but_lock_held (s : ClickHouse) (env : DBEnv)
    (h : s.storeMux = false) :
    s.store [] env = some { state := { s with storeMux := true }, err := none, trace := [] }
    ∧ (∀ (sr₂ : List StatRecord) (env₂ : DBEnv),
        ({ s with storeMux := true } : ClickHouse).store sr₂ env₂ = none) := by
  constructor
  · simp [ClickHouse.store, h]
  · intro sr₂ env₂
    simp [ClickHouse.store]

theorem store_empty_batch_no_steps_but_lock_held_witness :
    (NewClickHouse 1000 "node1" false).store [] envOK =
      some { state := { NewClickHouse 1000 "node1" false with storeMux := true },
             err := none, trace := [] }
    ∧ ({ NewClickHouse 1000 "node1" false with storeMux := true } : ClickHouse).store [rec0] envOK
        = none :=
  ⟨(store_empty_batch_no_steps_but_lock_held (NewClickHouse 1000 "node1" false) envOK rfl).1,
   (store_empty_batch_no_steps_but_lock_held (NewClickHouse 1000 "node1" false) envOK rfl).2
     [rec0] envOK⟩

lemma runAdds_invariant (rs : List StatRecord) :
    ∀ s : ClickHouse, s.batch.length < s.batchSize →
      (runAdds s rs).1.batchSize = s.batchSize
      ∧ (runAdds s rs).2.flatten ++ (runAdds s rs).1.batch = s.batch ++ rs
      ∧ (∀ b ∈ (runAdds s rs).2, b.length = s.batchSize)
      ∧ (runAdds s rs).1.batch.length < s.batchSize
      ∧ (runAdds s rs).1.batch.length = (s.batch.length + rs.length) % s.batchSize := by
  induction rs with
  | nil =>
    intro s hs
    refine ⟨rfl, by simp [runAdds], by simp [runAdds], hs, ?_⟩
    simp [runAdds, Nat.mod_eq_of_lt hs]
  | cons r rs ih =>
    intro s hs
    by_cases hfull : s.batchSize ≤ (s.batch ++ [r]).length
    · have hlen : s.batch.length + 1 = s.batchSize := by
        simp only [List.length_append, List.length_singleton, List.length_cons, List.length_nil] at hfull
        omega
      have hpos : 0 < s.batchSize := by omega
      obtain ⟨hsz, hjoin, hall, hlt, hmod⟩ := ih { s with batch := [] } (by simpa using hpos)
      dsimp only at hsz hjoin hall hlt hmod
      simp only [runAdds, Add_eq_pos s r hfull, Option.toList_some, List.singleton_append]
      refine ⟨hsz, ?_, ?_, hlt, ?_⟩
      · simp only [List.flatten_cons, List.append_assoc, hjoin]
        simp
      · intro b hb
        rcases List.mem_cons.mp hb with hb | hb
        · subst hb
          simp only [List.length_append, List.length_singleton]
          omega
        · exact hall b hb
      · rw [hmod]
        simp only [List.length_nil, List.length_cons, Nat.zero_add]
        have harith : s.batch.length + (rs.length + 1) = s.batchSize + rs.length := by omega
        rw [harith, Nat.add_mod_left]
    · have hlt₀ : (s.batch ++ [r]).length < s.batchSize := Nat.lt_of_not_le hfull
      obtain ⟨hsz, hjoin, hall, hlt, hmod⟩ := ih { s with batch := s.batch ++ [r] } (by simpa using hlt₀)
      dsimp only at hsz hjoin hall hlt hmod
      simp only [runAdds, Add_eq_neg s r hfull, Option.toList_none, List.nil_append]
      refine ⟨hsz, ?_, hall, hlt, ?_⟩
      · rw [hjoin]
        simp
      · rw [hmod]
        have harith : (s.batch ++ [r]).length + rs.length = s.batch.length + (r :: rs).length := by
          simp only [List.length_append, List.length_singleton, List.length_cons, List.length_nil]
          omega
        rw [harith]

/-- C1: for every batch size B ≥ 1 and every sequence of `Add` calls, the
batches handed off to asynchronous flushes together with the final batch
that `Close` flushes are exactly the added records, partitioned in order:
every asynchronous batch has exactly B records, and the final remainder
batch has `records.length % B` records. -/
theorem clickhouse_add_close_partitions_records (B : Nat) (node : String) (repl : Bool)
    (records : List StatRecord) (hB : 0 < B) :
    ((runAdds (NewClickHouse B node repl) records).2
        ++ [(runAdds (NewClickHouse B node repl) records).1.batch]).flatten = records
    ∧ (∀ b ∈ (runAdds (NewClickHouse B node repl) records).2, b.length = B)
    ∧ (runAdds (NewClickHouse B node repl) records).1.batch.length = records.length % B := by
  obtain ⟨hsz, hjoin, hall, hlt, hmod⟩ :=
    runAdds_invariant records (NewClickHouse B node repl) (by simpa [NewClickHouse] using hB)
  refine ⟨?_, ?_, ?_⟩
  · rw [List.flatten_append]
    simpa [NewClickHouse] using hjoin
  · simpa [NewClickHouse] using hall
  · simpa [NewClickHouse] using hmod

theorem clickhouse_add_close_partitions_records_witness :
    0 < 2
    ∧ (((runAdds (NewClickHouse 2 "node1" false) recs5).2
          ++ [(runAdds (NewClickHouse 2 "node1" false) recs5).1.batch]).flatten = recs5
        ∧ (∀ b ∈ (runAdds (NewClickHouse 2 "node1" false) recs5).2, b.length = 2)
        ∧ (runAdds (NewClickHouse 2 "node1" false) recs5).1.batch.length = recs5.length % 2) :=
  ⟨by decide, clickhouse_add_close_partitions_records 2 "node1" false recs5 (by decide)⟩

lemma store_eq_of_mux (s : ClickHouse) (sr : List StatRecord) (env : DBEnv)
    (h : s.storeMux = true) : s.store sr env = none := by
  simp [ClickHouse.store, h]

lemma store_eq_empty (s : ClickHouse) (env : DBEnv) (h : s.storeMux = false) :
    s.store [] env = some { state := { s with storeMux := true }, err := none, trace := [] } := by
  simp [ClickHouse.store, h]

lemma store_eq_getFail (s : ClickHouse) (sr : List StatRecord) (env : DBEnv) (e : String)
    (h : s.storeMux = false) (hsr : sr ≠ []) (hg : env.getErr = some e) :
    s.store sr env = some ⟨{ s with storeMux := false },
      some (wrap "Failed to get ClickHouse DB" e), [DBEvent.get]⟩ := by
  simp [ClickHouse.store, h, hg, List.length_eq_zero, hsr]

lemma store_eq_initDone (s : ClickHouse) (sr : List StatRecord) (env : DBEnv)
    (h : s.storeMux = false) (hsr : sr ≠ []) (hg : env.getErr = none) (hi : s.initDone = true) :
    s.store sr env = some ⟨{ s with storeMux := false },
      (storeTx s sr env).1, DBEvent.get :: (storeTx s sr env).2⟩ := by
  simp [ClickHouse.store, h, hg, hi, List.length_eq_zero, hsr]

lemma store_eq_mtFail (s : ClickHouse) (sr : List StatRecord) (env : DBEnv) (e : String)
    (h : s.storeMux = false) (hsr : sr ≠ []) (hg : env.getErr = none) (hi : s.initDone = false)
    (hmt : (s.makeTable env).2 = some e) :
    s.store sr env = some ⟨{ s with initDone := true, storeMux := false },
      some (wrap "Failed to create table" e), DBEvent.get :: (s.makeTable env).1⟩ := by
  simp [ClickHouse.store, h, hg, hi, hmt, List.length_eq_zero, hsr]

lemma storeTx_congr (s t : ClickHouse) (sr : List StatRecord) (env : DBEnv)
    (hn : s.nodeName = t.nodeName) (hr : s.replicated = t.replicated) :
    storeTx s sr env = storeTx t sr env := by
  unfold storeTx
  rw [hn, hr]

lemma store_eq_mtOK (s : ClickHouse) (sr : List StatRecord) (env : DBEnv)
    (h : s.storeMux = false) (hsr : sr ≠ []) (hg : env.getErr = none) (hi : s.initDone = false)
    (hmt : (s.makeTable env).2 = none) :
    s.store sr env = some ⟨{ s with initDone := true, storeMux := false },
      (storeTx s sr env).1, DBEvent.get :: (s.makeTable env).1 ++ (storeTx s sr env).2⟩ := by
  have hcongr : storeTx { s with storeMux := false, initDone := true } sr env = storeTx s sr env :=
    storeTx_congr _ _ sr env rfl rfl
  simp [ClickHouse.store, h, hg, hi, hmt, List.length_eq_zero, hsr, hcongr]

lemma makeTable_trace_cases (s : ClickHouse) (env : DBEnv) :
    (s.makeTable env).1 = [DBEvent.execDDL (chCreateTableSQL s.replicated)]
    ∨ (s.makeTable env).1 = [DBEvent.execDDL (chCreateTableSQL s.replicated),
        DBEvent.execDDL chCreateDistributedSQL] := by
  unfold ClickHouse.makeTable
  rcases env.ddlErr 0 with _ | e
  · by_cases hr : s.replicated <;> simp [hr]
  · simp

lemma makeTable_events (s : ClickHouse) (env : DBEnv) :
    ∀ e ∈ (s.makeTable env).1, ∃ q, e = DBEvent.execDDL q := by
  rcases makeTable_trace_cases s env with h | h <;> rw [h] <;> intro e he <;>
    rcases List.mem_cons.mp he with he | he
  · exact ⟨_, he⟩
  · simp at he
  · exact ⟨_, he⟩
  · rcases List.mem_cons.mp he with he | he
    · exact ⟨_, he⟩
    · simp at he

lemma execLoop_events (node : String) (env : DBEnv) :
    ∀ (sr : List StatRecord) (i : Nat),
      ∀ e ∈ (execLoop node env sr i).1, ∃ row, e = DBEvent.execInsert row := by
  intro sr
  induction sr with
  | nil => intro i e he; simp [execLoop] at he
  | cons r rs ih =>
    intro i e he
    unfold execLoop at he
    rcases henv : env.execErr i with _ | cause <;> rw [henv] at he
    · rcases List.mem_cons.mp he with he | he
      · exact ⟨_, he⟩
      · exact ih (i + 1) e he
    · rcases List.mem_cons.mp he with he | he
      · exact ⟨_, he⟩
      · simp at he

lemma execLoop_err_shape (node : String) (env : DBEnv) :
    ∀ (sr : List StatRecord) (i : Nat) (m : String),
      (execLoop node env sr i).2 = some m → ∃ cause, m = wrap "Failed to exec" cause := by
  intro sr
  induction sr with
  | nil => intro i m h; simp [execLoop] at h
  | cons r rs ih =>
    intro i m h
    unfold execLoop at h
    rcases henv : env.execErr i with _ | cause <;> rw [henv] at h <;> dsimp only at h
    · exact ih (i + 1) m h
    · exact ⟨cause, (Option.some.inj h).symm⟩

lemma execLoop_rows_of_ok (node : String) (env : DBEnv) :
    ∀ (sr : List StatRecord) (i : Nat), (execLoop node env sr i).2 = none →
      (execLoop node env sr i).1 = sr.map fun r => DBEvent.execInsert (execArgs node r) := by
  intro sr
  induction sr with
  | nil => intro i _; rfl
  | cons r rs ih =>
    intro i h
    unfold execLoop at h ⊢
    rcases henv : env.execErr i with _ | cause <;> rw [henv] at h <;> dsimp only at h ⊢
    · rw [ih (i + 1) h]
      simp
    · exact Option.noConfusion h

lemma execLoop_take (node : String) (env : DBEnv) :
    ∀ (sr : List StatRecord) (i : Nat),
      ∃ k, (execLoop node env sr i).1
        = (sr.take k).map fun r => DBEvent.execInsert (execArgs node r) := by
  intro sr
  induction sr with
  | nil => intro i; exact ⟨0, rfl⟩
  | cons r rs ih =>
    intro i
    unfold execLoop
    rcases henv : env.execErr i with _ | cause <;> dsimp only
    · obtain ⟨k, hk⟩ := ih (i + 1)
      exact ⟨k + 1, by simp [List.take_succ_cons, hk]⟩
    · exact ⟨1, by simp⟩

lemma insertedRows_append (a b : List DBEvent) :
    insertedRows (a ++ b) = insertedRows a ++ insertedRows b := by
  simp [insertedRows]

lemma insertedRows_map (f : StatRecord → List Val) (xs : List StatRecord) :
    insertedRows (xs.map fun r => DBEvent.execInsert (f r)) = xs.map f := by
  induction xs with
  | nil => rfl
  | cons x xs ih =>
    simp only [List.map_cons, insertedRows, List.filterMap_cons] at ih ⊢
    rw [ih]

lemma insertedRows_eq_nil_of (tr : List DBEvent)
    (h : ∀ e ∈ tr, ∀ row, e ≠ DBEvent.execInsert row) : insertedRows tr = [] := by
  induction tr with
  | nil => rfl
  | cons e tr ih =>
    have he := h e (List.mem_cons_self e tr)
    have hrest : ∀ x ∈ tr, ∀ row, x ≠ DBEvent.execInsert row :=
      fun x hx => h x (List.mem_cons_of_mem e hx)
    cases e <;> simp only [insertedRows, List.filterMap_cons] <;> try exact ih hrest
    · exact absurd rfl (he _)

lemma commit_not_mem_of_ddl (tr : List DBEvent)
    (h : ∀ e ∈ tr, ∃ q, e = DBEvent.execDDL q) : DBEvent.commit ∉ tr := by
  intro hc
  obtain ⟨q, hq⟩ := h _ hc
  exact DBEvent.noConfusion hq

lemma commit_not_mem_of_inserts (tr : List DBEvent)
    (h : ∀ e ∈ tr, ∃ row, e = DBEvent.execInsert row) : DBEvent.commit ∉ tr := by
  intro hc
  obtain ⟨row, hq⟩ := h _ hc
  exact DBEvent.noConfusion hq

lemma ddl_not_insert (tr : List DBEvent)
    (h : ∀ e ∈ tr, ∃ q, e = DBEvent.execDDL q) :
    ∀ e ∈ tr, ∀ row, e ≠ DBEvent.execInsert row := by
  intro e he row hrow
  obtain ⟨q, hq⟩ := h e he
  rw [hq] at hrow
  exact DBEvent.noConfusion hrow

lemma isPrefixOf_refl_rows (l : List (List Val)) : l.isPrefixOf l = true := by
  induction l with
  | nil => rfl
  | cons x t ih => simp [List.isPrefixOf, ih]

lemma take_isPrefixOf_rows (l : List (List Val)) : ∀ k, (l.take k).isPrefixOf l = true := by
  induction l with
  | nil => intro k; cases k <;> rfl
  | cons x t ih =>
    intro k
    cases k with
    | zero => rfl
    | succ k => simp [List.take_succ_cons, List.isPrefixOf, ih k]

lemma take_map_isPrefixOf (f : StatRecord → List Val) (sr : List StatRecord) (k : Nat) :
    ((sr.take k).map f).isPrefixOf (sr.map f) = true := by
  rw [List.map_take]
  exact take_isPrefixOf_rows _ k

lemma self_map_isPrefixOf (f : StatRecord → List Val) (sr : List StatRecord) :
    (sr.map f).isPrefixOf (sr.map f) = true :=
  isPrefixOf_refl_rows _

lemma execLoop_insertedRows_isPrefixOf (node : String) (env : DBEnv) (sr : List StatRecord) :
    (insertedRows (execLoop node env sr 0).1).isPrefixOf (sr.map (execArgs node)) = true := by
  obtain ⟨k, hk⟩ := execLoop_take node env sr 0
  rw [hk, insertedRows_map]
  exact take_map_isPrefixOf _ sr k

lemma storeTx_err_spec (s : ClickHouse) (sr : List StatRecord) (env : DBEnv) (m : String)
    (h : (storeTx s sr env).1 = some m) :
    DBEvent.commit ∉ (storeTx s sr env).2
    ∧ (insertedRows (storeTx s sr env).2).isPrefixOf (sr.map (execArgs s.nodeName)) = true
    ∧ ∃ ctx cause, m = wrap ctx cause
        ∧ ctx ∈ ["Failed to ping", "Failed to begin", "Failed to prepare", "Failed to exec",
                 "Failed to commit"] := by
  have hexecmem := execLoop_events s.nodeName env sr 0
  have hexecpre := execLoop_insertedRows_isPrefixOf s.nodeName env sr
  have hpre : insertedRows [DBEvent.ping, DBEvent.txBegin,
      DBEvent.prepare (chInsertSQL (storeTable s.replicated))] = [] := by
    simp [insertedRows]
  unfold storeTx at h ⊢
  rcases hping : env.pingErr with _ | e
  · simp only [hping] at h ⊢
    rcases hbegin : env.beginErr with _ | e
    · simp only [hbegin] at h ⊢
      rcases hprep : env.prepareErr with _ | e
      · simp only [hprep] at h ⊢
        rcases hloop : (execLoop s.nodeName env sr 0).2 with _ | e
        · simp only [hloop] at h ⊢
          rcases hcommit : env.commitErr with _ | e
          · simp only [hcommit] at h
            exact Option.noConfusion h
          · simp only [hcommit] at h ⊢
            refine ⟨?_, ?_, ?_⟩
            · intro hc
              rcases List.mem_append.mp hc with hc | hc
              · simp at hc
              · exact commit_not_mem_of_inserts _ hexecmem hc
            · rw [insertedRows_append, hpre, List.nil_append]
              exact hexecpre
            · exact ⟨"Failed to commit", e, (Option.some.inj h).symm, by simp⟩
        · simp only [hloop] at h ⊢
          obtain ⟨cause, hcause⟩ := execLoop_err_shape s.nodeName env sr 0 e hloop
          refine ⟨?_, ?_, ?_⟩
          · intro hc
            rcases List.mem_append.mp hc with hc | hc
            · simp at hc
            · exact commit_not_mem_of_inserts _ hexecmem hc
          · rw [insertedRows_append, hpre, List.nil_append]
            exact hexecpre
          · exact ⟨"Failed to exec", cause, by rw [← Option.some.inj h, hcause], by simp⟩
      · simp only [hprep] at h ⊢
        refine ⟨by simp, by simp [insertedRows], ?_⟩
        exact ⟨"Failed to prepare", e, (Option.some.inj h).symm, by simp⟩
    · simp only [hbegin] at h ⊢
      refine ⟨by simp, by simp [insertedRows], ?_⟩
      exact ⟨"Failed to begin", e, (Option.some.inj h).symm, by simp⟩
  · simp only [hping] at h ⊢
    refine ⟨by simp, by simp [insertedRows], ?_⟩
    exact ⟨"Failed to ping", e, (Option.some.inj h).symm, by simp⟩

lemma storeTx_ok_shape (s : ClickHouse) (sr : List StatRecord) (env : DBEnv)
    (h : (storeTx s sr env).1 = none) :
    (execLoop s.nodeName env sr 0).2 = none
    ∧ (storeTx s sr env).2
      = [DBEvent.ping, DBEvent.txBegin, DBEvent.prepare (chInsertSQL (storeTable s.replicated))]
          ++ (execLoop s.nodeName env sr 0).1 ++ [DBEvent.commit] := by
  unfold storeTx at h ⊢
  rcases hping : env.pingErr with _ | e
  · simp only [hping] at h ⊢
    rcases hbegin : env.beginErr with _ | e
    · simp only [hbegin] at h ⊢
      rcases hprep : env.prepareErr with _ | e
      · simp only [hprep] at h ⊢
        rcases hloop : (execLoop s.nodeName env sr 0).2 with _ | e
        · simp only [hloop]
          rcases hcommit : env.commitErr with _ | e
          · simp only [hcommit]
            exact ⟨trivial, trivial⟩
          · simp only [hloop, hcommit] at h
            exact Option.noConfusion h
        · simp only [hloop] at h
          exact Option.noConfusion h
      · simp only [hprep] at h
        exact Option.noConfusion h
    · simp only [hbegin] at h
      exact Option.noConfusion h
  · simp only [hping] at h
    exact Option.noConfusion h

lemma ranDDL_eq_false (tr : List DBEvent) (h : ∀ e ∈ tr, ∀ q, e ≠ DBEvent.execDDL q) :
    ranDDL tr = false := by
  induction tr with
  | nil => rfl
  | cons e tr ih =>
    have he := h e (List.mem_cons_self e tr)
    have hrest : ∀ x ∈ tr, ∀ q, x ≠ DBEvent.execDDL q :=
      fun x hx => h x (List.mem_cons_of_mem e hx)
    have ih₂ := ih hrest
    cases e
    case execDDL q => exact absurd rfl (he q)
    all_goals simp only [ranDDL, List.any_cons] at ih₂ ⊢
    all_goals simp [ih₂]

lemma storeTx_no_ddl (s : ClickHouse) (sr : List StatRecord) (env : DBEnv) :
    ∀ e ∈ (storeTx s sr env).2, ∀ q, e ≠ DBEvent.execDDL q := by
  have hexec := execLoop_events s.nodeName env sr 0
  intro e he q hq
  subst hq
  unfold storeTx at he
  rcases hping : env.pingErr with _ | e₁
  · simp only [hping] at he
    rcases hbegin : env.beginErr with _ | e₁
    · simp only [hbegin] at he
      rcases hprep : env.prepareErr with _ | e₁
      · simp only [hprep] at he
        rcases hloop : (execLoop s.nodeName env sr 0).2 with _ | e₁
        · simp only [hloop] at he
          rcases hcommit : env.commitErr with _ | e₁
          · simp only [hcommit] at he
            rcases List.mem_append.mp he with he | he
            · rcases List.mem_append.mp he with he | he
              · simp at he
              · obtain ⟨row, hrow⟩ := hexec _ he
                exact DBEvent.noConfusion hrow
            · simp at he
          · simp only [hcommit] at he
            rcases List.mem_append.mp he with he | he
            · simp at he
            · obtain ⟨row, hrow⟩ := hexec _ he
              exact DBEvent.noConfusion hrow
        · simp only [hloop] at he
          rcases List.mem_append.mp he with he | he
          · simp at he
          · obtain ⟨row, hrow⟩ := hexec _ he
            exact DBEvent.noConfusion hrow
      · simp only [hprep] at he
        simp at he
    · simp only [hbegin] at he
      simp at he
  · simp only [hping] at he
    simp at he

lemma ranDDL_makeTable (s : ClickHouse) (env : DBEnv) :
    ranDDL (DBEvent.get :: (s.makeTable env).1) = true := by
  rcases makeTable_trace_cases s env with hc | hc <;> rw [hc] <;> simp [ranDDL]

lemma ranDDL_with_makeTable (s : ClickHouse) (env : DBEnv) (rest : List DBEvent) :
    ranDDL (DBEvent.get :: (s.makeTable env).1 ++ rest) = true := by
  rcases makeTable_trace_cases s env with hc | hc <;> rw [hc] <;> simp [ranDDL]

lemma store_initDone_spec (s : ClickHouse) (sr : List StatRecord) (env : DBEnv)
    (res : StoreResult) (h : s.store sr env = some res) :
    res.state.initDone = (s.initDone || ranDDL res.trace)
    ∧ (s.initDone = true → ranDDL res.trace = false) := by
  by_cases hmux : s.storeMux
  · rw [store_eq_of_mux s sr env hmux] at h
    exact Option.noConfusion h
  · have hmux' : s.storeMux = false := by simpa using hmux
    by_cases hsr : sr = []
    · subst hsr
      rw [store_eq_empty s env hmux'] at h
      cases Option.some.inj h
      exact ⟨by simp [ranDDL], fun _ => by simp [ranDDL]⟩
    · rcases hg : env.getErr with _ | e
      · by_cases hinit : s.initDone
        · rw [store_eq_initDone s sr env hmux' hsr hg hinit] at h
          cases Option.some.inj h
          refine ⟨by simp [hinit], fun _ => ?_⟩
          apply ranDDL_eq_false
          intro ev hev q
          rcases List.mem_cons.mp hev with hev | hev
          · subst hev; simp
          · exact storeTx_no_ddl s sr env ev hev q
        · have hinit' : s.initDone = false := by simpa using hinit
          rcases hmt : (s.makeTable env).2 with _ | e
          · rw [store_eq_mtOK s sr env hmux' hsr hg hinit' hmt] at h
            cases Option.some.inj h
            refine ⟨?_, fun hi => absurd hi hinit⟩
            simp only [hinit', Bool.false_or, ranDDL_with_makeTable]
          · rw [store_eq_mtFail s sr env e hmux' hsr hg hinit' hmt] at h
            cases Option.some.inj h
            refine ⟨?_, fun hi => absurd hi hinit⟩
            simp only [hinit', Bool.false_or, ranDDL_makeTable]
      · rw [store_eq_getFail s sr env e hmux' hsr hg] at h
        cases Option.some.inj h
        exact ⟨by simp [ranDDL], fun _ => by simp [ranDDL]⟩

lemma runStores_le (calls : List (List StatRecord × DBEnv)) :
    ∀ s : ClickHouse, (runStores s calls).2 ≤ (if s.initDone then 0 else 1) := by
  induction calls with
  | nil => intro s; simp [runStores]
  | cons c rest ih =>
    intro s
    obtain ⟨sr, env⟩ := c
    rcases hst : s.store sr env with _ | res
    · simp [runStores, hst]
    · have hspec := store_initDone_spec s sr env res hst
      simp only [runStores, hst]
      by_cases hinit : s.initDone
      · have hran : ranDDL res.trace = false := hspec.2 hinit
        have hres : res.state.initDone = true := by
          rw [hspec.1, hinit, Bool.true_or]
        have hrest := ih res.state
        rw [hres] at hrest
        simp only [hinit, hran, if_true, if_false, Bool.false_eq_true]
        simpa using hrest
      · have hinit' : s.initDone = false := by simpa using hinit
        cases hran : ranDDL res.trace
        · have hres : res.state.initDone = s.initDone := by
            rw [hspec.1, hran, Bool.or_false]
          have hrest := ih res.state
          rw [hres, hinit'] at hrest
          simp only [hran, hinit', if_false, Bool.false_eq_true]
          simpa using hrest
        · have hres : res.state.initDone = true := by
            rw [hspec.1, hran, Bool.or_true]
          have hrest := ih res.state
          rw [hres] at hrest
          simp only [if_true] at hrest
          simp only [hran, hinit', if_true, Bool.false_eq_true, if_false]
          omega

/-- C4: over any sequence of flushes, with arbitrary batches and arbitrary
driver outcomes (including a failing first provisioning attempt), a fresh
writer runs `makeTable` at most once in its lifetime. -/
theorem makeTable_at_most_once (B : Nat) (node : String) (repl : Bool)
    (calls : List (List StatRecord × DBEnv)) :
    (runStores (NewClickHouse B node repl) calls).2 ≤ 1 := by
  have h := runStores_le calls (NewClickHouse B node repl)
  simpa [NewClickHouse] using h

lemma execLoop_err_at (node : String) (env : DBEnv) :
    ∀ (sr : List StatRecord) (i k : Nat) (e : String), k < sr.length →
      (∀ j, j < k → env.execErr (i + j) = none) → env.execErr (i + k) = some e →
      (execLoop node env sr i).2 = some (wrap "Failed to exec" e) := by
  intro sr
  induction sr with
  | nil => intro i k e hk; simp at hk
  | cons r rs ih =>
    intro i k e hk hnone hsome
    unfold execLoop
    cases k with
    | zero =>
      rw [Nat.add_zero] at hsome
      rw [hsome]
    | succ k₁ =>
      have h0 : env.execErr (i + 0) = none := hnone 0 (Nat.succ_pos k₁)
      rw [Nat.add_zero] at h0
      rw [h0]
      dsimp only
      apply ih (i + 1) k₁ e
      · simpa using hk
      · intro j hj
        have hx := hnone (j + 1) (by omega)
        rw [show i + (j + 1) = i + 1 + j by omega] at hx
        exact hx
      · rw [show i + 1 + k₁ = i + (k₁ + 1) by omega]
        exact hsome

lemma execLoop_ok_of_all_none (node : String) (env : DBEnv) :
    ∀ (sr : List StatRecord) (i : Nat),
      (∀ j, j < sr.length → env.execErr (i + j) = none) →
      (execLoop node env sr i).2 = none := by
  intro sr
  induction sr with
  | nil => intro i _; rfl
  | cons r rs ih =>
    intro i hnone
    unfold execLoop
    have h0 := hnone 0 (by simp)
    rw [Nat.add_zero] at h0
    rw [h0]
    dsimp only
    apply ih
    intro j hj
    have hx := hnone (j + 1) (by simpa using Nat.succ_lt_succ hj)
    rw [show i + (j + 1) = i + 1 + j by omega] at hx
    exact hx

lemma storeTx_ping_err (s : ClickHouse) (sr : List StatRecord) (env : DBEnv) (e : String)
    (hp : env.pingErr = some e) :
    (storeTx s sr env).1 = some (wrap "Failed to ping" e) := by
  unfold storeTx
  rw [hp]

lemma storeTx_begin_err (s : ClickHouse) (sr : List StatRecord) (env : DBEnv) (e : String)
    (hp : env.pingErr = none) (hb : env.beginErr = some e) :
    (storeTx s sr env).1 = some (wrap "Failed to begin" e) := by
  unfold storeTx
  rw [hp, hb]

lemma storeTx_prepare_err (s : ClickHouse) (sr : List StatRecord) (env : DBEnv) (e : String)
    (hp : env.pingErr = none) (hb : env.beginErr = none) (hq : env.prepareErr = some e) :
    (storeTx s sr env).1 = some (wrap "Failed to prepare" e) := by
  unfold storeTx
  rw [hp, hb, hq]

lemma storeTx_exec_err (s : ClickHouse) (sr : List StatRecord) (env : DBEnv) (e : String)
    (hp : env.pingErr = none) (hb : env.beginErr = none) (hq : env.prepareErr = none)
    (hloop : (execLoop s.nodeName env sr 0).2 = some e) :
    (storeTx s sr env).1 = some e := by
  unfold storeTx
  rw [hp, hb, hq, hloop]

lemma storeTx_commit_err (s : ClickHouse) (sr : List StatRecord) (env : DBEnv) (e : String)
    (hp : env.pingErr = none) (hb : env.beginErr = none) (hq : env.prepareErr = none)
    (hloop : (execLoop s.nodeName env sr 0).2 = none) (hc : env.commitErr = some e) :
    (storeTx s sr env).1 = some (wrap "Failed to commit" e) := by
  unfold storeTx
  rw [hp, hb, hq, hloop, hc]

lemma nil_isPrefixOf (l : List (List Val)) : ([] : List (List Val)).isPrefixOf l = true := by
  cases l <;> rfl

lemma insertedRows_cons_get (tr : List DBEvent) :
    insertedRows (DBEvent.get :: tr) = insertedRows tr := rfl

lemma insertedRows_makeTable (s : ClickHouse) (env : DBEnv) :
    insertedRows (s.makeTable env).1 = [] :=
  insertedRows_eq_nil_of _ (ddl_not_insert _ (makeTable_events s env))

/-- C6: on a non-empty batch, whenever `store` returns an error — at handle
acquisition, provisioning, ping, transaction begin, statement prepare, a
per-record exec, or commit — the transaction is never committed, no record
of the batch is committed to the store, the rows exec-ed before the failure
are a prefix of the batch (no per-record retry), and the returned message
wraps the failing step's context; moreover each individual step failure
produces exactly its own wrapped context. -/
theorem store_failure_aborts_whole_batch :
    (∀ (s : ClickHouse) (sr : List StatRecord) (env : DBEnv) (res : StoreResult) (m : String),
        s.store sr env = some res → res.err = some m →
          DBEvent.commit ∉ res.trace
          ∧ committedRows res.trace = []
          ∧ (insertedRows res.trace).isPrefixOf (sr.map (execArgs s.nodeName)) = true
          ∧ ∃ ctx cause, m = wrap ctx cause
              ∧ ctx ∈ ["Failed to get ClickHouse DB", "Failed to create table", "Failed to ping",
                       "Failed to begin", "Failed to prepare", "Failed to exec",
                       "Failed to commit"])
    ∧ (∀ (s : ClickHouse) (sr : List StatRecord) (env : DBEnv) (e : String),
        s.storeMux = false → sr ≠ [] → env.getErr = some e →
          ∃ res, s.store sr env = some res
            ∧ res.err = some (wrap "Failed to get ClickHouse DB" e))
    ∧ (∀ (s : ClickHouse) (sr : List StatRecord) (env : DBEnv) (e : String),
        s.storeMux = false → sr ≠ [] → env.getErr = none → s.initDone = false →
          (s.makeTable env).2 = some e →
          ∃ res, s.store sr env = some res
            ∧ res.err = some (wrap "Failed to create table" e))
    ∧ (∀ (s : ClickHouse) (sr : List StatRecord) (env : DBEnv) (e : String),
        s.storeMux = false → sr ≠ [] → env.getErr = none → s.initDone = true →
          env.pingErr = some e →
          ∃ res, s.store sr env = some res ∧ res.err = some (wrap "Failed to ping" e))
    ∧ (∀ (s : ClickHouse) (sr : List StatRecord) (env : DBEnv) (e : String),
        s.storeMux = false → sr ≠ [] → env.getErr = none → s.initDone = true →
          env.pingErr = none → env.beginErr = some e →
          ∃ res, s.store sr env = some res ∧ res.err = some (wrap "Failed to begin" e))
    ∧ (∀ (s : ClickHouse) (sr : List StatRecord) (env : DBEnv) (e : String),
        s.storeMux = false → sr ≠ [] → env.getErr = none → s.initDone = true →
          env.pingErr = none → env.beginErr = none → env.prepareErr = some e →
          ∃ res, s.store sr env = some res ∧ res.err = some (wrap "Failed to prepare" e))
    ∧ (∀ (s : ClickHouse) (sr : List StatRecord) (env : DBEnv) (e : String) (i : Nat),
        s.storeMux = false → sr ≠ [] → env.getErr = none → s.initDone = true →
          env.pingErr = none → env.beginErr = none → env.prepareErr = none →
          i < sr.length → (∀ j, j < i → env.execErr j = none) → env.execErr i = some e →
          ∃ res, s.store sr env = some res ∧ res.err = some (wrap "Failed to exec" e))
    ∧ (∀ (s : ClickHouse) (sr : List StatRecord) (env : DBEnv) (e : String),
        s.storeMux = false → sr ≠ [] → env.getErr = none → s.initDone = true →
          env.pingErr = none → env.beginErr = none → env.prepareErr = none →
          (∀ j, j < sr.length → env.execErr j = none) → env.commitErr = some e →
          ∃ res, s.store sr env = some res ∧ res.err = some (wrap "Failed to commit" e)) := by
  refine ⟨?_, ?_, ?_, ?_, ?_, ?_, ?_, ?_⟩
  · intro s sr env res m h hm
    by_cases hmux : s.storeMux
    · rw [store_eq_of_mux s sr env hmux] at h
      exact Option.noConfusion h
    have hmux' : s.storeMux = false := by simpa using hmux
    by_cases hsr : sr = []
    · subst hsr
      rw [store_eq_empty s env hmux'] at h
      cases Option.some.inj h
      exact Option.noConfusion hm
    rcases hg : env.getErr with _ | e
    · by_cases hinit : s.initDone
      · rw [store_eq_initDone s sr env hmux' hsr hg hinit] at h
        cases Option.some.inj h
        dsimp only at hm ⊢
        obtain ⟨hc, hpre, ctx, cause, hm', hmem⟩ := storeTx_err_spec s sr env m hm
        have hcommit : DBEvent.commit ∉ DBEvent.get :: (storeTx s sr env).2 := by
          intro hx
          rcases List.mem_cons.mp hx with hx | hx
          · exact DBEvent.noConfusion hx
          · exact hc hx
        refine ⟨hcommit, ?_, ?_, ctx, cause, hm', ?_⟩
        · simp only [committedRows]
          rw [if_neg hcommit]
        · rw [insertedRows_cons_get]
          exact hpre
        · exact List.mem_cons_of_mem _ (List.mem_cons_of_mem _ hmem)
      · have hinit' : s.initDone = false := by simpa using hinit
        rcases hmt : (s.makeTable env).2 with _ | e
        · rw [store_eq_mtOK s sr env hmux' hsr hg hinit' hmt] at h
          cases Option.some.inj h
          dsimp only at hm ⊢
          obtain ⟨hc, hpre, ctx, cause, hm', hmem⟩ := storeTx_err_spec s sr env m hm
          have hddl := makeTable_events s env
          have hcommit :
              DBEvent.commit ∉ DBEvent.get :: (s.makeTable env).1 ++ (storeTx s sr env).2 := by
            intro hx
            rcases List.mem_cons.mp hx with hx | hx
            · exact DBEvent.noConfusion hx
            rcases List.mem_append.mp hx with hx | hx
            · exact commit_not_mem_of_ddl _ hddl hx
            · exact hc hx
          refine ⟨hcommit, ?_, ?_, ctx, cause, hm', ?_⟩
          · simp only [committedRows]
            rw [if_neg hcommit]
          · rw [insertedRows_append, insertedRows_cons_get, insertedRows_makeTable,
              List.nil_append]
            exact hpre
          · exact List.mem_cons_of_mem _ (List.mem_cons_of_mem _ hmem)
        · rw [store_eq_mtFail s sr env e hmux' hsr hg hinit' hmt] at h
          cases Option.some.inj h
          dsimp only at hm ⊢
          have hm' := (Option.some.inj hm).symm
          have hddl := makeTable_events s env
          have hcommit : DBEvent.commit ∉ DBEvent.get :: (s.makeTable env).1 := by
            intro hx
            rcases List.mem_cons.mp hx with hx | hx
            · exact DBEvent.noConfusion hx
            · exact commit_not_mem_of_ddl _ hddl hx
          refine ⟨hcommit, ?_, ?_, "Failed to create table", e, hm', by simp⟩
          · simp only [committedRows]
            rw [if_neg hcommit]
          · rw [insertedRows_cons_get, insertedRows_makeTable]
            exact nil_isPrefixOf _
    · rw [store_eq_getFail s sr env e hmux' hsr hg] at h
      cases Option.some.inj h
      dsimp only at hm ⊢
      have hm' := (Option.some.inj hm).symm
      have hcommit : DBEvent.commit ∉ [DBEvent.get] := by simp
      refine ⟨hcommit, ?_, ?_, "Failed to get ClickHouse DB", e, hm', by simp⟩
      · simp only [committedRows]
        rw [if_neg hcommit]
      · rw [show insertedRows [DBEvent.get] = [] from rfl]
        exact nil_isPrefixOf _
  · intro s sr env e hmux hsr hg
    exact ⟨_, store_eq_getFail s sr env e hmux hsr hg, rfl⟩
  · intro s sr env e hmux hsr hg hinit hmt
    exact ⟨_, store_eq_mtFail s sr env e hmux hsr hg hinit hmt, rfl⟩
  · intro s sr env e hmux hsr hg hinit hp
    exact ⟨_, store_eq_initDone s sr env hmux hsr hg hinit,
      by dsimp only; exact storeTx_ping_err s sr env e hp⟩
  · intro s sr env e hmux hsr hg hinit hp hb
    exact ⟨_, store_eq_initDone s sr env hmux hsr hg hinit,
      by dsimp only; exact storeTx_begin_err s sr env e hp hb⟩
  · intro s sr env e hmux hsr hg hinit hp hb hq
    exact ⟨_, store_eq_initDone s sr env hmux hsr hg hinit,
      by dsimp only; exact storeTx_prepare_err s sr env e hp hb hq⟩
  · intro s sr env e i hmux hsr hg hinit hp hb hq hi hall hsome
    have hloop : (execLoop s.nodeName env sr 0).2 = some (wrap "Failed to exec" e) := by
      apply execLoop_err_at s.nodeName env sr 0 i e hi
      · intro j hj
        rw [Nat.zero_add]
        exact hall j hj
      · rw [Nat.zero_add]
        exact hsome
    exact ⟨_, store_eq_initDone s sr env hmux hsr hg hinit,
      by dsimp only; exact storeTx_exec_err s sr env _ hp hb hq hloop⟩
  · intro s sr env e hmux hsr hg hinit hp hb hq hall hc
    have hloop : (execLoop s.nodeName env sr 0).2 = none := by
      apply execLoop_ok_of_all_none s.nodeName env sr 0
      intro j hj
      rw [Nat.zero_add]
      exact hall j hj
    exact ⟨_, store_eq_initDone s sr env hmux hsr hg hinit,
      by dsimp only; exact storeTx_commit_err s sr env e hp hb hq hloop hc⟩

lemma store_ok_shape (s : ClickHouse) (sr : List StatRecord) (env : DBEnv) (res : StoreResult)
    (h : s.store sr env = some res) (he : res.err = none) (hsr : sr ≠ []) :
    ∃ mtTr : List DBEvent, (∀ e ∈ mtTr, ∃ q, e = DBEvent.execDDL q)
      ∧ (execLoop s.nodeName env sr 0).2 = none
      ∧ res.trace = (DBEvent.get :: mtTr)
          ++ ([DBEvent.ping, DBEvent.txBegin,
               DBEvent.prepare (chInsertSQL (storeTable s.replicated))]
              ++ (execLoop s.nodeName env sr 0).1 ++ [DBEvent.commit]) := by
  by_cases hmux : s.storeMux
  · rw [store_eq_of_mux s sr env hmux] at h
    exact Option.noConfusion h
  have hmux' : s.storeMux = false := by simpa using hmux
  rcases hg : env.getErr with _ | e
  · by_cases hinit : s.initDone
    · rw [store_eq_initDone s sr env hmux' hsr hg hinit] at h
      cases Option.some.inj h
      dsimp only at he ⊢
      obtain ⟨hloop, htr⟩ := storeTx_ok_shape s sr env he
      exact ⟨[], by simp, hloop, by rw [htr]; simp⟩
    · have hinit' : s.initDone = false := by simpa using hinit
      rcases hmt : (s.makeTable env).2 with _ | e
      · rw [store_eq_mtOK s sr env hmux' hsr hg hinit' hmt] at h
        cases Option.some.inj h
        dsimp only at he ⊢
        obtain ⟨hloop, htr⟩ := storeTx_ok_shape s sr env he
        refine ⟨(s.makeTable env).1, makeTable_events s env, hloop, ?_⟩
        rw [htr]
      · rw [store_eq_mtFail s sr env e hmux' hsr hg hinit' hmt] at h
        cases Option.some.inj h
        dsimp only at he
        exact Option.noConfusion he
  · rw [store_eq_getFail s sr env e hmux' hsr hg] at h
    cases Option.some.inj h
    dsimp only at he
    exact Option.noConfusion he

/-- C7: whenever `store` flushes a non-empty batch successfully, exactly one
insert is executed per record, in batch order, inside a single transaction
(one begin, one commit); every row's advertising flag is normalised to 1
for true and 0 for false, and the writer's node identifier is attached as
the final column of every row. -/
theorem store_success_inserts_rows_in_order (s : ClickHouse) (sr : List StatRecord)
    (env : DBEnv) (res : StoreResult) (h : s.store sr env = some res) (he : res.err = none)
    (hsr : sr ≠ []) :
    insertedRows res.trace = sr.map (execArgs s.nodeName)
    ∧ res.trace.count DBEvent.txBegin = 1
    ∧ res.trace.count DBEvent.commit = 1
    ∧ (∀ r ∈ sr, (execArgs s.nodeName r).getLast? = some (Val.str s.nodeName))
    ∧ (∀ r ∈ sr, (execArgs s.nodeName r)[16]? = some (Val.nat (if r.Ads then 1 else 0))) := by
  obtain ⟨mtTr, hddl, hloop, htr⟩ := store_ok_shape s sr env res h he hsr
  have hrows := execLoop_rows_of_ok s.nodeName env sr 0 hloop
  have hexecmem := execLoop_events s.nodeName env sr 0
  have hins_mt : insertedRows mtTr = [] := insertedRows_eq_nil_of _ (ddl_not_insert _ hddl)
  have htb_mt : DBEvent.txBegin ∉ mtTr := by
    intro hmem
    obtain ⟨q, hq⟩ := hddl _ hmem
    exact DBEvent.noConfusion hq
  have htb_exec : DBEvent.txBegin ∉ (execLoop s.nodeName env sr 0).1 := by
    intro hmem
    obtain ⟨row, hq⟩ := hexecmem _ hmem
    exact DBEvent.noConfusion hq
  have hcm_mt : DBEvent.commit ∉ mtTr := commit_not_mem_of_ddl _ hddl
  have hcm_exec : DBEvent.commit ∉ (execLoop s.nodeName env sr 0).1 :=
    commit_not_mem_of_inserts _ hexecmem
  refine ⟨?_, ?_, ?_, fun r _ => rfl, fun r _ => rfl⟩
  · rw [htr, insertedRows_append, insertedRows_cons_get, hins_mt, List.nil_append,
      insertedRows_append, insertedRows_append, hrows, insertedRows_map]
    have h1 : insertedRows [DBEvent.ping, DBEvent.txBegin,
        DBEvent.prepare (chInsertSQL (storeTable s.replicated))] = [] := by
      simp [insertedRows]
    have h2 : insertedRows [DBEvent.commit] = [] := by
      simp [insertedRows]
    rw [h1, h2, List.nil_append, List.append_nil]
  · rw [htr]
    simp [List.count_append, List.count_cons, List.count_eq_zero.mpr htb_mt,
      List.count_eq_zero.mpr htb_exec]
  · rw [htr]
    simp [List.count_append, List.count_cons, List.count_eq_zero.mpr hcm_mt,
      List.count_eq_zero.mpr hcm_exec]

/-- C8: with replicated mode on, provisioning issues a CREATE TABLE IF NOT
EXISTS for `proxy_stat` with the replicated storage engine followed by a
second CREATE TABLE IF NOT EXISTS for the distributed table
`proxy_stat_all` with `rand()` shard routing, and the prepared insert of
every successful flush targets `proxy_stat_all`; with replicated mode off,
only the single local table `proxy_stat` is created and inserts target
`proxy_stat`. -/
theorem replicated_ddl_and_insert_target :
    (∀ (env : DBEnv) (s : ClickHouse), env.ddlErr 0 = none →
        (s.replicated = true →
          (s.makeTable env).1 = [DBEvent.execDDL (chCreateTableSQL true),
                                 DBEvent.execDDL chCreateDistributedSQL])
        ∧ (s.replicated = false →
          (s.makeTable env).1 = [DBEvent.execDDL (chCreateTableSQL false)]))
    ∧ "CREATE TABLE IF NOT EXISTS proxy_stat on cluster".data.isPrefixOf
        (chCreateTableSQL true).data = true
    ∧ hasSub "ReplicatedMergeTree".data (chCreateTableSQL true).data = true
    ∧ "CREATE TABLE IF NOT EXISTS proxy_stat_all on cluster".data.isPrefixOf
        chCreateDistributedSQL.data = true
    ∧ hasSub "Distributed".data chCreateDistributedSQL.data = true
    ∧ hasSub "rand()".data chCreateDistributedSQL.data = true
    ∧ "CREATE TABLE IF NOT EXISTS proxy_stat (".data.isPrefixOf
        (chCreateTableSQL false).data = true
    ∧ hasSub "Replicated".data (chCreateTableSQL false).data = false
    ∧ storeTable true = "proxy_stat_all"
    ∧ storeTable false = "proxy_stat"
    ∧ (∀ (s : ClickHouse) (sr : List StatRecord) (env : DBEnv) (res : StoreResult),
        s.store sr env = some res → res.err = none → sr ≠ [] →
          DBEvent.prepare (chInsertSQL (storeTable s.replicated)) ∈ res.trace)
    ∧ "INSERT INTO proxy_stat_all".data.isPrefixOf (chInsertSQL (storeTable true)).data = true
    ∧ "INSERT INTO proxy_stat (".data.isPrefixOf (chInsertSQL (storeTable false)).data = true := by
  refine ⟨?_, by decide, by decide, by decide, by decide, by decide, by decide, by decide,
    by decide, by decide, ?_, by decide, by decide⟩
  · intro env s hddl
    constructor
    · intro hr
      unfold ClickHouse.makeTable
      rw [hddl, hr]
      simp
    · intro hr
      unfold ClickHouse.makeTable
      rw [hddl, hr]
      simp
  · intro s sr env res h he hsr
    obtain ⟨mtTr, _, _, htr⟩ := store_ok_shape s sr env res h he hsr
    rw [htr]
    simp

theorem replicated_ddl_and_insert_target_witness :
    envOK.ddlErr 0 = none
    ∧ (wRepl.makeTable envOK).1 = [DBEvent.execDDL (chCreateTableSQL true),
                                   DBEvent.execDDL chCreateDistributedSQL]
    ∧ wRepl.store [recAds] envOK = some resRepl
    ∧ resRepl.err = none
    ∧ DBEvent.prepare (chInsertSQL (storeTable wRepl.replicated)) ∈ resRepl.trace :=
  ⟨rfl, (replicated_ddl_and_insert_target.1 envOK wRepl rfl).1 rfl, rfl, rfl,
    replicated_ddl_and_insert_target.2.2.2.2.2.2.2.2.2.2.1 wRepl [recAds] envOK resRepl rfl rfl
      (by simp)⟩

theorem store_success_inserts_rows_in_order_witness :
    wInit.store [recAds] envOK = some resOK
    ∧ resOK.err = none
    ∧ (insertedRows resOK.trace = [recAds].map (execArgs wInit.nodeName)
        ∧ resOK.trace.count DBEvent.txBegin = 1
        ∧ resOK.trace.count DBEvent.commit = 1
        ∧ (∀ r ∈ [recAds], (execArgs wInit.nodeName r).getLast? = some (Val.str wInit.nodeName))
        ∧ (∀ r ∈ [recAds],
            (execArgs wInit.nodeName r)[16]? = some (Val.nat (if r.Ads then 1 else 0)))) :=
  ⟨rfl, rfl, store_success_inserts_rows_in_order wInit [recAds] envOK resOK rfl rfl (by simp)⟩

theorem store_failure_aborts_whole_batch_witness :
    wInit.store [rec0] envPingFail = some resPing
    ∧ resPing.err = some "Failed to ping: no connection"
    ∧ (DBEvent.commit ∉ resPing.trace
        ∧ committedRows resPing.trace = []
        ∧ (insertedRows resPing.trace).isPrefixOf ([rec0].map (execArgs wInit.nodeName)) = true
        ∧ ∃ ctx cause, "Failed to ping: no connection" = wrap ctx cause
            ∧ ctx ∈ ["Failed to get ClickHouse DB", "Failed to create table", "Failed to ping",
                     "Failed to begin", "Failed to prepare", "Failed to exec",
                     "Failed to commit"]) :=
  ⟨rfl, rfl, store_failure_aborts_whole_batch.1 wInit [rec0] envPingFail resPing
    "Failed to ping: no connection" rfl rfl⟩
